import Mathlib

/-!
Verification of the Iroha transaction validation and ledger commit pipeline
(specified in spec.md) together with the pure helper `extract_hash` from
`client_cli/pytests/common/helpers.py`.

The repository itself contains only the pytest client suites for the ledger;
the ledger core (World State View, Instruction Executor, Transaction
Validator) is exercised as an external binary.  Those components are
therefore modelled from the specification, with error-message strings pinned
by the test suites' `Stderr` constants.  `extract_hash` is translated
directly from its Python source.
-/

deriving instance DecidableEq for Except

set_option maxRecDepth 8000

namespace Iroha

/-- An account id, rendered `signatory@domain` — a pair of the signatory
public key string and the domain name. -/
abbrev AccountId := String × String

/-- An asset definition id, rendered `name#domain`. -/
abbrev AssetDefId := String × String

/-- An asset id, rendered `name##signatory@domain` — a definition id plus
the owning account id. -/
abbrev AssetId := AssetDefId × AccountId

/-- Modelled from the spec: the value type of an asset definition
(`Numeric` or `Store`), per the data model and the `ValueTypes` enum in the
pytest constants. -/
inductive ValueType where
  | numeric
  | store
deriving DecidableEq, Repr

/-- Modelled from the spec: the error taxonomy of §7 (the ledger core that
produces these errors is not part of the repository; the kinds are pinned
by the spec and by the `Stderr` constants the test suites match against;
`Overflow` renders §4.2's width bound on Mint results, a kind §7's list
does not name). -/
inductive ExecError where
  | Empty
  | TooLong
  | ReservedCharacter
  | Whitespace
  | Repetition
  | FailedToFindDomain
  | FailedToFindAccount
  | FailedToFindAsset
  | FailedToFindAssetDefinition
  | InvalidCharacter
  | InvalidValueType
  | InsufficientFunds
  | Overflow
  | NotPermitted
  | UnknownPermission
deriving DecidableEq, Repr

/-- Modelled from the spec: the stable, user-facing message for each error
kind — the de facto wire contract the pytest suites pattern-match on
(`iroha_cli_tests/common/consts.py`). -/
def errorMessage : ExecError → String
  | .Empty => "Empty"
  | .TooLong => "Name length violation"
  | .ReservedCharacter =>
      "The `@` character is reserved for `account@domain` constructs, and `#` — for `asset#domain`."
  | .Whitespace => "White space not allowed"
  | .Repetition => "Repetition"
  | .FailedToFindDomain => "Failed to find domain"
  | .FailedToFindAccount => "Failed to find account"
  | .FailedToFindAsset => "Failed to find asset"
  | .FailedToFindAssetDefinition => "Failed to find asset definition"
  | .InvalidCharacter => "Failed to parse"
  | .InvalidValueType => "Matching variant not found"
  | .InsufficientFunds => "Not enough quantity to transfer/burn"
  | .Overflow => "Overflow occurred"
  | .NotPermitted =>
      "Operation is not permitted: This operation is only allowed inside the genesis block"
  | .UnknownPermission => "Unknown permission"

/-- Modelled from the spec: the characters reserved for composite ids
(`@` for `account@domain`, `#` for `asset#domain`, `$` for triggers). -/
def reservedChars : List Char := ['@', '#', '$']

/-- Modelled from the spec: validation of an entity name — non-empty,
at most 128 characters, no reserved characters, no whitespace, each
violation mapped to its distinguishing error kind, checked in the order
the spec lists them. -/
def validateName (n : String) : Option ExecError :=
  if n.toList.isEmpty then some .Empty
  else if 128 < n.toList.length then some .TooLong
  else if n.toList.any (fun c => reservedChars.contains c) then some .ReservedCharacter
  else if n.toList.any (fun c => c.isWhitespace) then some .Whitespace
  else none

/-- Modelled from the spec: the World State View — the authoritative
projection of all domains, accounts, asset definitions, assets and granted
permissions at a committed height. -/
structure WSV where
  domains : List String
  accounts : List AccountId
  assetDefs : List (AssetDefId × ValueType)
  assets : List (AssetId × Nat)
  permissions : List (AccountId × String)
deriving DecidableEq, Repr

/-- First-match lookup of an asset record in the asset store. -/
def getAsset (assets : List (AssetId × Nat)) (id : AssetId) : Option Nat :=
  match assets with
  | [] => none
  | e :: rest => if e.1 = id then some e.2 else getAsset rest id

/-- The numeric balance of an asset id; an absent record reads as 0. -/
def getBalance (assets : List (AssetId × Nat)) (id : AssetId) : Nat :=
  (getAsset assets id).getD 0

/-- Write a balance: replace the first record with this id, or append a new
record if the id is absent. -/
def setBalance : List (AssetId × Nat) → AssetId → Nat → List (AssetId × Nat)
  | [], id, v => [(id, v)]
  | e :: rest, id, v =>
      if e.1 = id then (id, v) :: rest else e :: setBalance rest id v

/-- The total supply of an asset definition: the sum of all recorded
balances of assets with that definition, over every owning account. -/
def totalSupply (assets : List (AssetId × Nat)) (d : AssetDefId) : Nat :=
  match assets with
  | [] => 0
  | e :: rest => (if e.1.1 = d then e.2 else 0) + totalSupply rest d

/-- Lookup of an asset definition's value type. -/
def lookupDef (defs : List (AssetDefId × ValueType)) (d : AssetDefId) : Option ValueType :=
  match defs with
  | [] => none
  | e :: rest => if e.1 = d then some e.2 else lookupDef rest d

/-- The asset query of the test scenarios: the asset list filtered by an
exact asset id, yielding the recorded value when the record exists. -/
def queryAssetValue (w : WSV) (id : AssetId) : Option Nat :=
  getAsset w.assets id

/-- Modelled from the spec: the permission tokens recognized by the
executor (the full registry lives in the external binary; the suite
exercises `CanSetParameters` and `CanRegisterDomain`). -/
def knownPermissions : List String := ["CanSetParameters", "CanRegisterDomain"]

/-- Modelled from the spec: the bootstrap permissions only settable inside
the genesis block. -/
def genesisOnlyPermissions : List String := ["CanRegisterDomain"]

/-- Modelled from the spec: the width bound of a Numeric asset value
(96-bit decimal-capable); a Mint result must not overflow this width. -/
def numericWidth : Nat := 2 ^ 96

/-- Modelled from the spec: the permission token authorizing cross-account
minting of another account's asset. -/
def canMintPermission : String := "CanMintUserAsset"

/-- Modelled from the spec: whether the authority may mint the asset —
self-mint (the authority owns the target asset) is always allowed;
cross-account mint requires the explicit mint permission. -/
def canMint (authority : AccountId) (a : AssetId) (w : WSV) : Bool :=
  a.2 == authority || w.permissions.contains (authority, canMintPermission)

/-- A hexadecimal digit, as the character class `[A-Fa-f0-9]`. -/
def isHexDigit (c : Char) : Bool :=
  ('A' ≤ c && c ≤ 'F') || ('a' ≤ c && c ≤ 'f') || ('0' ≤ c && c ≤ '9')

/-- Modelled from the spec: syntactic validity of an account public key —
hex of the correct length (`ed0120` multihash header plus 64 hex digits). -/
def validPublicKey (k : String) : Bool :=
  k.toList.length == 70 && k.toList.all isHexDigit

/-- Modelled from the spec: the instruction set fragment exercised by the
claims. -/
inductive Instruction where
  | registerDomain (name : String)
  | registerAccount (signatory : String) (domain : String)
  | registerAssetDefinition (name : String) (domain : String) (vt : ValueType)
  | mint (asset : AssetId) (q : Nat)
  | burn (asset : AssetId) (q : Nat)
  | transfer (d : AssetDefId) (src dst : AccountId) (q : Nat)
  | grant (permission : String) (dest : AccountId)
deriving DecidableEq, Repr

/-- Modelled from the spec: Register(Domain) — the name must validate and
not already exist (else Repetition). -/
def registerDomain (n : String) (w : WSV) : Except ExecError WSV :=
  match validateName n with
  | some e => .error e
  | none =>
      if n ∈ w.domains then .error .Repetition
      else .ok { w with domains := n :: w.domains }

/-- Modelled from the spec: Register(Account) — the target domain must
exist (FailedToFindDomain), the signatory must not already be registered in
that domain (Repetition), and the public key must be syntactically valid
(InvalidCharacter), checked in that order. -/
def registerAccount (sig dom : String) (w : WSV) : Except ExecError WSV :=
  if dom ∉ w.domains then .error .FailedToFindDomain
  else if (sig, dom) ∈ w.accounts then .error .Repetition
  else if ¬ validPublicKey sig then .error .InvalidCharacter
  else .ok { w with accounts := (sig, dom) :: w.accounts }

/-- Modelled from the spec: Register(AssetDefinition) — the target domain
must exist, the name must validate (constraints mirror Domain's), and the
id must not already exist in the domain (Repetition). -/
def registerAssetDefinition (n dom : String) (vt : ValueType) (w : WSV) :
    Except ExecError WSV :=
  if dom ∉ w.domains then .error .FailedToFindDomain
  else
    match validateName n with
    | some e => .error e
    | none =>
        if (lookupDef w.assetDefs (n, dom)).isSome then .error .Repetition
        else .ok { w with assetDefs := ((n, dom), vt) :: w.assetDefs }

/-- Modelled from the spec: Mint(Asset, quantity) — the asset definition
must exist with the Numeric value type, the authority must be allowed to
mint the asset (self-mint always allowed; cross-account mint requires the
explicit permission, else NotPermitted), and the resulting value must not
overflow the Numeric width; the asset record is then created with value q
if absent, else incremented by q. -/
def mint (authority : AccountId) (a : AssetId) (q : Nat) (w : WSV) : Except ExecError WSV :=
  match lookupDef w.assetDefs a.1 with
  | none => .error .FailedToFindAssetDefinition
  | some .store => .error .InvalidValueType
  | some .numeric =>
      if canMint authority a w then
        if numericWidth ≤ getBalance w.assets a + q then .error .Overflow
        else .ok { w with assets := setBalance w.assets a (getBalance w.assets a + q) }
      else .error .NotPermitted

/-- Modelled from the spec: Burn(Asset, quantity) — the same lookups as
Mint (the asset definition must exist with the Numeric value type); then
fails with InsufficientFunds when the current value is below the requested
quantity, else decrements. -/
def burn (a : AssetId) (q : Nat) (w : WSV) : Except ExecError WSV :=
  match lookupDef w.assetDefs a.1 with
  | none => .error .FailedToFindAssetDefinition
  | some .store => .error .InvalidValueType
  | some .numeric =>
      if getBalance w.assets a < q then .error .InsufficientFunds
      else .ok { w with assets := setBalance w.assets a (getBalance w.assets a - q) }

/-- Modelled from the spec: Transfer(Asset, from, to, quantity) — requires
the source balance to cover the quantity (else InsufficientFunds, leaving
both sides unchanged), then debits the source and credits the destination,
creating the destination's asset record if absent, as one all-or-nothing
step. -/
def transfer (d : AssetDefId) (src dst : AccountId) (q : Nat) (w : WSV) :
    Except ExecError WSV :=
  if getBalance w.assets (d, src) < q then .error .InsufficientFunds
  else
    let debited := setBalance w.assets (d, src) (getBalance w.assets (d, src) - q)
    .ok { w with assets := setBalance debited (d, dst) (getBalance debited (d, dst) + q) }

/-- Modelled from the spec: Grant(Permission, destination) — the token must
be a recognized name (else UnknownPermission), bootstrap permissions may
only be set inside the genesis block (else NotPermitted), and the
destination account must exist (else FailedToFindAccount). -/
def grantPermission (inGenesis : Bool) (p : String) (dest : AccountId) (w : WSV) :
    Except ExecError WSV :=
  if p ∉ knownPermissions then .error .UnknownPermission
  else if p ∈ genesisOnlyPermissions ∧ inGenesis = false then .error .NotPermitted
  else if dest ∉ w.accounts then .error .FailedToFindAccount
  else .ok { w with permissions := (dest, p) :: w.permissions }

/-- Modelled from the spec: the Instruction Executor's `apply` — one
deterministic instruction applied to a staged WSV under an execution
context: the `inGenesis` flag distinguishes genesis-block execution and
`authority` is the account of the transaction's creator. -/
def applyInstruction (inGenesis : Bool) (authority : AccountId) :
    Instruction → WSV → Except ExecError WSV
  | .registerDomain n, w => registerDomain n w
  | .registerAccount sig dom, w => registerAccount sig dom w
  | .registerAssetDefinition n dom vt, w => registerAssetDefinition n dom vt w
  | .mint a q, w => mint authority a q w
  | .burn a q, w => burn a q w
  | .transfer d src dst q, w => transfer d src dst q w
  | .grant p dest, w => grantPermission inGenesis p dest w

/-- Modelled from the spec: strictly sequential execution of a
transaction's instruction list against a staged WSV, short-circuiting at
the first failure. -/
def applyAll (inGenesis : Bool) (authority : AccountId) :
    List Instruction → WSV → Except ExecError WSV
  | [], w => .ok w
  | i :: rest, w =>
      match applyInstruction inGenesis authority i w with
      | .ok w₁ => applyAll inGenesis authority rest w₁
      | .error e => .error e

/-- Modelled from the spec: the Transaction Validator — every instruction
is applied to a staged copy of the WSV, in order, short-circuiting on the
first failure; the canonical WSV is never mutated during validation. -/
def validate (inGenesis : Bool) (creator : AccountId) (instrs : List Instruction)
    (w : WSV) : Except ExecError WSV :=
  applyAll inGenesis creator instrs w

/-- Modelled from the spec: submission of one transaction against the
canonical WSV — on successful validation the staged effects are committed;
on rejection the canonical WSV is left untouched and the rejection reason
is reported. -/
def submitTransaction (inGenesis : Bool) (creator : AccountId)
    (instrs : List Instruction) (w : WSV) : WSV × Option ExecError :=
  match validate inGenesis creator instrs w with
  | .ok staged => (staged, none)
  | .error e => (w, some e)

/-- The empty world state, for concrete evaluations. -/
def emptyWSV : WSV := ⟨[], [], [], [], []⟩

/-- A small populated world state for concrete evaluations: the domain
`wonderland` with accounts `alice` and `bob`, the numeric asset definition
`coin#wonderland`, and alice holding 2 `coin`. -/
def wonderland : WSV :=
  ⟨["wonderland"], [("alice", "wonderland"), ("bob", "wonderland")],
   [(("coin", "wonderland"), .numeric)],
   [((("coin", "wonderland"), ("alice", "wonderland")), 2)], []⟩

end Iroha

namespace Helpers

/-- A Python value passed to `extract_hash`: either a `str` or any
non-string object (the function only inspects `isinstance(stdout, str)`). -/
inductive PyValue where
  | str (s : String)
  | nonStr
deriving Repr

/-- A character in Python's `str.strip()` default whitespace set (ASCII
part; whitespace characters can never be part of a hash match, so the
stripped-emptiness test below agrees with the source on every input). -/
def pyIsSpace (c : Char) : Bool :=
  c == ' ' || c == '\t' || c == '\n' || c == '\r' || c == '\x0b' || c == '\x0c'

/-- The regex `"([A-Fa-f0-9]{64})"` anchored at the head of the character
list: an opening double quote, exactly 64 hex digits, a closing double
quote. -/
def hashAt (l : List Char) : Bool :=
  match l with
  | [] => false
  | c :: rest =>
      c == '\"' && (rest.take 64).length == 64 && (rest.take 64).all Iroha.isHexDigit &&
        (rest.drop 64).head? == some '\"'

/-- `re.search` of the pattern `"([A-Fa-f0-9]{64})"`: the leftmost match,
returning capture group 1 (the 64 hex digits, quotes stripped). -/
def searchHash : List Char → Option String
  | [] => none
  | c :: rest =>
      if hashAt (c :: rest) then some (String.mk (rest.take 64))
      else searchHash rest

/-- Translation of `extract_hash` from
`client_cli/pytests/common/helpers.py`: non-strings and strings that strip
to empty yield `None`; otherwise the first double-quoted 64-hex-digit
substring is returned with the quotes stripped, or `None` when there is no
match. -/
def extract_hash : PyValue → Option String
  | .nonStr => none
  | .str s => if s.toList.all pyIsSpace then none else searchHash s.toList

/-- Stated from the claim's words, for refinement against `extract_hash`:
`l` decomposes as `pre ++ '\x22' :: hex ++ '\x22' :: post` where `hex` is
exactly 64 hexadecimal digits — that is, `l` contains a double-quoted
64-character hexadecimal substring, starting after prefix `pre`. -/
def QuotedHexDecomp (l pre hex post : List Char) : Prop :=
  l = pre ++ '\"' :: (hex ++ '\"' :: post) ∧ hex.length = 64 ∧ hex.all Iroha.isHexDigit = true

end Helpers

namespace Iroha

theorem getAsset_setBalance_self (a : List (AssetId × Nat)) (id : AssetId) (v : Nat) :
    getAsset (setBalance a id v) id = some v := by
  induction a with
  | nil => simp [setBalance, getAsset]
  | cons e rest ih =>
      by_cases h : e.1 = id
      · simp [setBalance, h, getAsset]
      · simp [setBalance, h, getAsset, ih]

theorem getAsset_setBalance_ne (a : List (AssetId × Nat)) (id id' : AssetId) (v : Nat)
    (hne : id' ≠ id) : getAsset (setBalance a id v) id' = getAsset a id' := by
  have hid : ¬ (id = id') := fun h => hne h.symm
  induction a with
  | nil => simp [setBalance, getAsset, hid]
  | cons e rest ih =>
      by_cases h : e.1 = id
      · simp [setBalance, h, getAsset, hid]
      · by_cases h' : e.1 = id'
        · simp [setBalance, h, getAsset, h', hne]
        · simp [setBalance, h, getAsset, h', ih]

theorem getBalance_setBalance_self (a : List (AssetId × Nat)) (id : AssetId) (v : Nat) :
    getBalance (setBalance a id v) id = v := by
  simp [getBalance, getAsset_setBalance_self]

theorem getBalance_setBalance_ne (a : List (AssetId × Nat)) (id id' : AssetId) (v : Nat)
    (hne : id' ≠ id) : getBalance (setBalance a id v) id' = getBalance a id' := by
  simp [getBalance, getAsset_setBalance_ne a id id' v hne]

theorem totalSupply_setBalance (a : List (AssetId × Nat)) (id : AssetId) (v : Nat)
    (hd : id.1 = d) :
    totalSupply (setBalance a id v) d + getBalance a id = totalSupply a d + v := by
  induction a with
  | nil => simp [setBalance, totalSupply, getBalance, getAsset, hd]
  | cons e rest ih =>
      by_cases h : e.1 = id
      · have he : e.1.1 = d := by rw [h, hd]
        simp only [setBalance, h, if_pos, totalSupply, hd, he, if_true,
          getBalance, getAsset, ite_true]
        simp only [Option.getD_some]
        omega
      · have hb : getBalance (e :: rest) id = getBalance rest id := by
          simp [getBalance, getAsset, h]
        simp only [setBalance, h, ite_false, totalSupply, hb]
        omega

/-- C1: a transaction whose instruction sequence is [A, B], where A
succeeds and B then fails, is rejected with B's error and has zero
observable side effects — the canonical world state after the submission
equals the world state before it. -/
theorem rejected_transaction_atomicity (g : Bool) (auth : AccountId)
    (A B : Instruction) (w w₁ : WSV)
    (e : ExecError) (hA : applyInstruction g auth A w = .ok w₁)
    (hB : applyInstruction g auth B w₁ = .error e) :
    submitTransaction g auth [A, B] w = (w, some e) := by
  simp [submitTransaction, validate, applyAll, hA, hB]

/-- C1 witness: on the empty world state, a transaction registering the
domain `foo` twice is rejected with Repetition and leaves the world state
untouched. -/
theorem rejected_transaction_atomicity_witness :
    submitTransaction false ("alice", "wonderland")
      [Instruction.registerDomain "foo", Instruction.registerDomain "foo"] emptyWSV =
      (emptyWSV, some ExecError.Repetition) :=
  rejected_transaction_atomicity false ("alice", "wonderland")
    (Instruction.registerDomain "foo")
    (Instruction.registerDomain "foo") emptyWSV ⟨["foo"], [], [], [], []⟩
    ExecError.Repetition (by decide) (by decide)

/-- C2: a Transfer or Burn whose quantity strictly exceeds the source
balance is rejected with InsufficientFunds (message "Not enough quantity
to transfer/burn") and both the source and the destination balances are
exactly as before the attempt. -/
theorem insufficient_funds_is_noop (g : Bool) (auth : AccountId) (d : AssetDefId)
    (src dst : AccountId) (q : Nat) (w : WSV)
    (hdef : lookupDef w.assetDefs d = some .numeric)
    (h : getBalance w.assets (d, src) < q) :
    submitTransaction g auth [.transfer d src dst q] w = (w, some .InsufficientFunds) ∧
    submitTransaction g auth [.burn (d, src) q] w = (w, some .InsufficientFunds) ∧
    getBalance (submitTransaction g auth [.transfer d src dst q] w).1.assets (d, src) =
      getBalance w.assets (d, src) ∧
    getBalance (submitTransaction g auth [.transfer d src dst q] w).1.assets (d, dst) =
      getBalance w.assets (d, dst) ∧
    getBalance (submitTransaction g auth [.burn (d, src) q] w).1.assets (d, src) =
      getBalance w.assets (d, src) ∧
    errorMessage .InsufficientFunds = "Not enough quantity to transfer/burn" := by
  have ht : submitTransaction g auth [.transfer d src dst q] w = (w, some .InsufficientFunds) := by
    simp [submitTransaction, validate, applyAll, applyInstruction, transfer, h]
  have hb : submitTransaction g auth [.burn (d, src) q] w = (w, some .InsufficientFunds) := by
    simp [submitTransaction, validate, applyAll, applyInstruction, burn, hdef, h]
  exact ⟨ht, hb, by rw [ht], by rw [ht], by rw [hb], rfl⟩

/-- C2 witness: on the `wonderland` state, where alice holds 2 coin,
transferring or burning 3 coin is rejected with InsufficientFunds and
changes no balance. -/
theorem insufficient_funds_is_noop_witness :
    submitTransaction false ("alice", "wonderland")
      [Instruction.transfer ("coin", "wonderland") ("alice", "wonderland")
        ("bob", "wonderland") 3] wonderland = (wonderland, some ExecError.InsufficientFunds) ∧
    submitTransaction false ("alice", "wonderland")
      [Instruction.burn (("coin", "wonderland"), ("alice", "wonderland")) 3] wonderland =
      (wonderland, some ExecError.InsufficientFunds) ∧
    getBalance (submitTransaction false ("alice", "wonderland")
      [Instruction.transfer ("coin", "wonderland") ("alice", "wonderland")
        ("bob", "wonderland") 3] wonderland).1.assets
      (("coin", "wonderland"), ("alice", "wonderland")) =
      getBalance wonderland.assets (("coin", "wonderland"), ("alice", "wonderland")) ∧
    getBalance (submitTransaction false ("alice", "wonderland")
      [Instruction.transfer ("coin", "wonderland") ("alice", "wonderland")
        ("bob", "wonderland") 3] wonderland).1.assets
      (("coin", "wonderland"), ("bob", "wonderland")) =
      getBalance wonderland.assets (("coin", "wonderland"), ("bob", "wonderland")) ∧
    getBalance (submitTransaction false ("alice", "wonderland")
      [Instruction.burn (("coin", "wonderland"), ("alice", "wonderland")) 3] wonderland).1.assets
      (("coin", "wonderland"), ("alice", "wonderland")) =
      getBalance wonderland.assets (("coin", "wonderland"), ("alice", "wonderland")) ∧
    errorMessage ExecError.InsufficientFunds = "Not enough quantity to transfer/burn" :=
  insufficient_funds_is_noop false ("alice", "wonderland") ("coin", "wonderland")
    ("alice", "wonderland") ("bob", "wonderland") 3 wonderland (by decide) (by decide)

/-- C4: minting quantity q of an asset whose definition exists with the
Numeric value type, by an authority allowed to mint it, with a resulting
value within the Numeric width, succeeds; if the target account held no
record of that asset, a record with value q is created (a query filtered
by the asset id then returns q), and if it held value v, the record's
value becomes v + q. -/
theorem mint_creates_or_increments (g : Bool) (auth : AccountId) (a : AssetId)
    (q : Nat) (w : WSV)
    (hdef : lookupDef w.assetDefs a.1 = some .numeric)
    (hperm : canMint auth a w = true)
    (hbound : getBalance w.assets a + q < numericWidth) :
    (applyInstruction g auth (.mint a q) w).isOk = true ∧
    ∀ w', applyInstruction g auth (.mint a q) w = .ok w' →
      (queryAssetValue w a = none → queryAssetValue w' a = some q) ∧
      (∀ v, queryAssetValue w a = some v → queryAssetValue w' a = some (v + q)) := by
  have hov : ¬ (numericWidth ≤ getBalance w.assets a + q) := by omega
  have happ : applyInstruction g auth (.mint a q) w =
      .ok { w with assets := setBalance w.assets a (getBalance w.assets a + q) } := by
    simp [applyInstruction, mint, hdef, hperm, hov]
  refine ⟨by rw [happ]; rfl, ?_⟩
  intro w' hw'
  rw [happ] at hw'
  simp only [Except.ok.injEq] at hw'
  constructor
  · intro h0
    have hz : getBalance w.assets a = 0 := by
      simp only [queryAssetValue] at h0
      simp [getBalance, h0]
    simp only [queryAssetValue, ← hw']
    rw [getAsset_setBalance_self, hz]
    simp
  · intro v hv
    simp only [queryAssetValue] at hv ⊢
    rw [← hw', getAsset_setBalance_self, getBalance, hv]
    rfl

/-- C4 witness: on the `wonderland` state, bob minting 5 coin for himself
(no prior coin record) yields a record of value 5, and alice minting 4
more coin for herself (holding 2) yields a record of value 6. -/
theorem mint_creates_or_increments_witness :
    queryAssetValue
      (WSV.mk ["wonderland"] [("alice", "wonderland"), ("bob", "wonderland")]
        [(("coin", "wonderland"), ValueType.numeric)]
        [((("coin", "wonderland"), ("alice", "wonderland")), 2),
         ((("coin", "wonderland"), ("bob", "wonderland")), 5)] [])
      (("coin", "wonderland"), ("bob", "wonderland")) = some 5 ∧
    queryAssetValue
      (WSV.mk ["wonderland"] [("alice", "wonderland"), ("bob", "wonderland")]
        [(("coin", "wonderland"), ValueType.numeric)]
        [((("coin", "wonderland"), ("alice", "wonderland")), 6)] [])
      (("coin", "wonderland"), ("alice", "wonderland")) = some 6 :=
  ⟨((mint_creates_or_increments false ("bob", "wonderland")
      (("coin", "wonderland"), ("bob", "wonderland")) 5 wonderland
      (by decide) (by decide) (by decide)).2
      (WSV.mk ["wonderland"] [("alice", "wonderland"), ("bob", "wonderland")]
        [(("coin", "wonderland"), ValueType.numeric)]
        [((("coin", "wonderland"), ("alice", "wonderland")), 2),
         ((("coin", "wonderland"), ("bob", "wonderland")), 5)] []) (by decide)).1 (by decide),
   ((mint_creates_or_increments false ("alice", "wonderland")
      (("coin", "wonderland"), ("alice", "wonderland")) 4 wonderland
      (by decide) (by decide) (by decide)).2
      (WSV.mk ["wonderland"] [("alice", "wonderland"), ("bob", "wonderland")]
        [(("coin", "wonderland"), ValueType.numeric)]
        [((("coin", "wonderland"), ("alice", "wonderland")), 6)] []) (by decide)).2
      2 (by decide)⟩

/-- C9: any operation targeting a non-existent domain (registering an
account or an asset definition there) fails with FailedToFindDomain, whose
stable message "Failed to find domain" is distinct from the
account-not-found and asset-not-found messages. -/
theorem domain_not_found_distinct (g : Bool) (auth : AccountId) (w : WSV)
    (sig dom n : String)
    (vt : ValueType) (hd : dom ∉ w.domains) :
    applyInstruction g auth (.registerAccount sig dom) w = .error .FailedToFindDomain ∧
    applyInstruction g auth (.registerAssetDefinition n dom vt) w = .error .FailedToFindDomain ∧
    errorMessage .FailedToFindDomain = "Failed to find domain" ∧
    errorMessage .FailedToFindDomain ≠ errorMessage .FailedToFindAccount ∧
    errorMessage .FailedToFindDomain ≠ errorMessage .FailedToFindAsset := by
  refine ⟨?_, ?_, rfl, by decide, by decide⟩ <;>
    simp [applyInstruction, registerAccount, registerAssetDefinition, hd]

/-- C9 witness: on the `wonderland` state, registering an account or an
asset definition in the absent domain `looking_glass` fails with
FailedToFindDomain. -/
theorem domain_not_found_distinct_witness :
    applyInstruction false ("alice", "wonderland") (Instruction.registerAccount "ed0120FF" "looking_glass")
      wonderland = .error ExecError.FailedToFindDomain ∧
    applyInstruction false ("alice", "wonderland")
      (Instruction.registerAssetDefinition "gold" "looking_glass" ValueType.numeric)
      wonderland = .error ExecError.FailedToFindDomain ∧
    errorMessage ExecError.FailedToFindDomain = "Failed to find domain" ∧
    errorMessage ExecError.FailedToFindDomain ≠ errorMessage ExecError.FailedToFindAccount ∧
    errorMessage ExecError.FailedToFindDomain ≠ errorMessage ExecError.FailedToFindAsset :=
  domain_not_found_distinct false ("alice", "wonderland") wonderland "ed0120FF"
    "looking_glass" "gold"
    ValueType.numeric (by decide)

/-- C3: a successful Transfer(asset, A, B, q) between two distinct
accounts decreases A's balance by exactly q, increases B's balance by
exactly q (B's asset record being created when absent: afterwards the
record exists and holds the old balance plus q), and leaves the total
supply of the asset unchanged. -/
theorem transfer_conservation (g : Bool) (auth : AccountId) (d : AssetDefId)
    (src dst : AccountId)
    (q : Nat) (w w' : WSV) (hne : src ≠ dst)
    (h : applyInstruction g auth (.transfer d src dst q) w = .ok w') :
    getBalance w'.assets (d, src) + q = getBalance w.assets (d, src) ∧
    getBalance w'.assets (d, dst) = getBalance w.assets (d, dst) + q ∧
    getAsset w'.assets (d, dst) = some (getBalance w.assets (d, dst) + q) ∧
    totalSupply w'.assets d = totalSupply w.assets d := by
  have hne1 : ((d, src) : AssetId) ≠ (d, dst) := fun hc => hne (congrArg Prod.snd hc)
  have hne2 : ((d, dst) : AssetId) ≠ (d, src) := fun hc => hne1 hc.symm
  simp only [applyInstruction, transfer] at h
  by_cases hlt : getBalance w.assets (d, src) < q
  · simp [hlt] at h
  · rw [if_neg hlt] at h
    simp only [Except.ok.injEq] at h
    have hq : q ≤ getBalance w.assets (d, src) := Nat.le_of_not_lt hlt
    set debited := setBalance w.assets (d, src) (getBalance w.assets (d, src) - q) with hdeb
    have hdst : getBalance debited (d, dst) = getBalance w.assets (d, dst) :=
      getBalance_setBalance_ne _ _ _ _ hne2
    have hassets : w'.assets =
        setBalance debited (d, dst) (getBalance debited (d, dst) + q) := by
      rw [← h]
    refine ⟨?_, ?_, ?_, ?_⟩
    · rw [hassets, getBalance_setBalance_ne _ _ _ _ hne1, hdeb,
        getBalance_setBalance_self]
      omega
    · rw [hassets, getBalance_setBalance_self, hdst]
    · rw [hassets, getAsset_setBalance_self, hdst]
    · have t1 : totalSupply debited d + getBalance w.assets (d, src) =
          totalSupply w.assets d + (getBalance w.assets (d, src) - q) :=
        totalSupply_setBalance w.assets (d, src) _ rfl
      have t2 : totalSupply w'.assets d + getBalance debited (d, dst) =
          totalSupply debited d + (getBalance debited (d, dst) + q) := by
        rw [hassets]
        exact totalSupply_setBalance debited (d, dst) _ rfl
      omega

/-- C3 witness: on the `wonderland` state, transferring 1 coin from alice
(holding 2) to bob (no record) leaves alice with 1, creates bob's record
with 1, and keeps the total supply of coin at 2. -/
theorem transfer_conservation_witness :
    getBalance (WSV.mk ["wonderland"]
      [("alice", "wonderland"), ("bob", "wonderland")]
      [(("coin", "wonderland"), ValueType.numeric)]
      [((("coin", "wonderland"), ("alice", "wonderland")), 1),
       ((("coin", "wonderland"), ("bob", "wonderland")), 1)] []).assets
        (("coin", "wonderland"), ("alice", "wonderland")) + 1 =
      getBalance wonderland.assets (("coin", "wonderland"), ("alice", "wonderland")) ∧
    getBalance (WSV.mk ["wonderland"]
      [("alice", "wonderland"), ("bob", "wonderland")]
      [(("coin", "wonderland"), ValueType.numeric)]
      [((("coin", "wonderland"), ("alice", "wonderland")), 1),
       ((("coin", "wonderland"), ("bob", "wonderland")), 1)] []).assets
        (("coin", "wonderland"), ("bob", "wonderland")) =
      getBalance wonderland.assets (("coin", "wonderland"), ("bob", "wonderland")) + 1 ∧
    getAsset (WSV.mk ["wonderland"]
      [("alice", "wonderland"), ("bob", "wonderland")]
      [(("coin", "wonderland"), ValueType.numeric)]
      [((("coin", "wonderland"), ("alice", "wonderland")), 1),
       ((("coin", "wonderland"), ("bob", "wonderland")), 1)] []).assets
        (("coin", "wonderland"), ("bob", "wonderland")) =
      some (getBalance wonderland.assets (("coin", "wonderland"), ("bob", "wonderland")) + 1) ∧
    totalSupply (WSV.mk ["wonderland"]
      [("alice", "wonderland"), ("bob", "wonderland")]
      [(("coin", "wonderland"), ValueType.numeric)]
      [((("coin", "wonderland"), ("alice", "wonderland")), 1),
       ((("coin", "wonderland"), ("bob", "wonderland")), 1)] []).assets ("coin", "wonderland") =
      totalSupply wonderland.assets ("coin", "wonderland") :=
  transfer_conservation false ("alice", "wonderland") ("coin", "wonderland")
    ("alice", "wonderland") ("bob", "wonderland") 1 wonderland
    (WSV.mk ["wonderland"] [("alice", "wonderland"), ("bob", "wonderland")]
      [(("coin", "wonderland"), ValueType.numeric)]
      [((("coin", "wonderland"), ("alice", "wonderland")), 1),
       ((("coin", "wonderland"), ("bob", "wonderland")), 1)] [])
    (by decide) (by decide)

/-- C5: when Register(Domain, n) succeeds, a second Register(Domain, n) on
the resulting state yields the Repetition error (message "Repetition"), and
the resulting domain set contains exactly one domain named n. -/
theorem domain_registration_uniqueness (g : Bool) (auth : AccountId)
    (n : String) (w w₁ : WSV)
    (h : applyInstruction g auth (.registerDomain n) w = .ok w₁) :
    applyInstruction g auth (.registerDomain n) w₁ = .error .Repetition ∧
    w₁.domains.count n = 1 ∧
    errorMessage .Repetition = "Repetition" := by
  simp only [applyInstruction, registerDomain] at h ⊢
  cases hv : validateName n with
  | some e => rw [hv] at h; simp at h
  | none =>
      rw [hv] at h
      by_cases hmem : n ∈ w.domains
      · simp [hmem] at h
      · rw [if_neg hmem] at h
        simp only [Except.ok.injEq] at h
        have hdom : w₁.domains = n :: w.domains := by rw [← h]
        refine ⟨?_, ?_, rfl⟩
        · rw [hdom]
          simp
        · rw [hdom, List.count_cons_self, List.count_eq_zero_of_not_mem hmem]

/-- C5 witness: registering `foo` on the empty world state and then again
on the result yields Repetition, with exactly one `foo` in the domain
set. -/
theorem domain_registration_uniqueness_witness :
    applyInstruction false ("alice", "wonderland") (Instruction.registerDomain "foo")
      (WSV.mk ["foo"] [] [] [] []) = .error ExecError.Repetition ∧
    (WSV.mk ["foo"] [] [] [] []).domains.count "foo" = 1 ∧
    errorMessage ExecError.Repetition = "Repetition" :=
  domain_registration_uniqueness false ("alice", "wonderland") "foo" emptyWSV
    (WSV.mk ["foo"] [] [] [] []) (by decide)

/-- C6: for a fresh name with no reserved characters and no whitespace,
Register(Domain) succeeds at the maximum length 128, and is rejected with
the TooLong error (message "Name length violation") at length 129. -/
theorem domain_name_length_boundary (g : Bool) (auth : AccountId) (w : WSV)
    (n m : String)
    (hn : n.toList.length = 128)
    (hnr : n.toList.any (fun c => reservedChars.contains c) = false)
    (hnw : n.toList.any (fun c => c.isWhitespace) = false)
    (hfresh : n ∉ w.domains)
    (hm : m.toList.length = 129)
    (hmr : m.toList.any (fun c => reservedChars.contains c) = false)
    (hmw : m.toList.any (fun c => c.isWhitespace) = false) :
    applyInstruction g auth (.registerDomain n) w = .ok { w with domains := n :: w.domains } ∧
    applyInstruction g auth (.registerDomain m) w = .error .TooLong ∧
    errorMessage .TooLong = "Name length violation" := by
  have hne : n.toList.isEmpty = false := by
    cases hl : n.toList with
    | nil => rw [hl] at hn; simp at hn
    | cons c cs => simp
  have hme : m.toList.isEmpty = false := by
    cases hl : m.toList with
    | nil => rw [hl] at hm; simp at hm
    | cons c cs => simp
  have h1 : ¬ (128 < n.toList.length) := by omega
  have h2 : 128 < m.toList.length := by omega
  have hvn : validateName n = none := by
    unfold validateName
    rw [if_neg (by simpa using hne), if_neg h1, if_neg (by simpa using hnr),
      if_neg (by simpa using hnw)]
  have hvm : validateName m = some .TooLong := by
    unfold validateName
    rw [if_neg (by simpa using hme), if_pos h2]
  refine ⟨?_, ?_, rfl⟩
  · simp only [applyInstruction, registerDomain, hvn]
    rw [if_neg hfresh]
  · simp only [applyInstruction, registerDomain, hvm]

/-- C6 witness: on the empty world state, a 128-`a` name registers
successfully and a 129-`a` name is rejected with TooLong. -/
theorem domain_name_length_boundary_witness :
    applyInstruction false ("alice", "wonderland")
      (Instruction.registerDomain (String.mk (List.replicate 128 'a'))) emptyWSV =
      .ok { emptyWSV with domains := [String.mk (List.replicate 128 'a')] } ∧
    applyInstruction false ("alice", "wonderland")
      (Instruction.registerDomain (String.mk (List.replicate 129 'a'))) emptyWSV =
      .error ExecError.TooLong ∧
    errorMessage ExecError.TooLong = "Name length violation" :=
  domain_name_length_boundary false ("alice", "wonderland") emptyWSV
    (String.mk (List.replicate 128 'a'))
    (String.mk (List.replicate 129 'a')) (by decide) (by decide) (by decide)
    (by decide) (by decide) (by decide) (by decide)

/-- C7: a domain name (non-empty, within the length bound) containing a
reserved character is rejected with the ReservedCharacter error, whose
message is the explanation that `@` is reserved for `account@domain`
constructs and `#` for `asset#domain` — both composite-id forms occur in
the message verbatim. -/
theorem reserved_character_rejection (g : Bool) (auth : AccountId) (w : WSV)
    (n : String)
    (hne : n.toList.isEmpty = false)
    (hlen : ¬ (128 < n.toList.length))
    (hres : n.toList.any (fun c => reservedChars.contains c) = true) :
    applyInstruction g auth (.registerDomain n) w = .error .ReservedCharacter ∧
    errorMessage .ReservedCharacter =
      "The `@` character is reserved for `account@domain` constructs, and `#` — for `asset#domain`." ∧
    "account@domain".toList <:+: (errorMessage .ReservedCharacter).toList ∧
    "asset#domain".toList <:+: (errorMessage .ReservedCharacter).toList := by
  have hv : validateName n = some .ReservedCharacter := by
    unfold validateName
    rw [if_neg (by simpa using hne), if_neg hlen, if_pos hres]
  refine ⟨?_, rfl, by decide, by decide⟩
  simp only [applyInstruction, registerDomain, hv]

/-- C7 witness: registering the domain `foo@bar` on the empty world state
is rejected with ReservedCharacter and the pinned explanatory message. -/
theorem reserved_character_rejection_witness :
    applyInstruction false ("alice", "wonderland") (Instruction.registerDomain "foo@bar") emptyWSV =
      .error ExecError.ReservedCharacter ∧
    errorMessage ExecError.ReservedCharacter =
      "The `@` character is reserved for `account@domain` constructs, and `#` — for `asset#domain`." ∧
    "account@domain".toList <:+: (errorMessage ExecError.ReservedCharacter).toList ∧
    "asset#domain".toList <:+: (errorMessage ExecError.ReservedCharacter).toList :=
  reserved_character_rejection false ("alice", "wonderland") emptyWSV "foo@bar"
    (by decide) (by decide) (by decide)

/-- C8: Grant(permission, destination) fails with UnknownPermission
("Unknown permission") when the token is not a recognized name; with
NotPermitted and the exact message "Operation is not permitted: This
operation is only allowed inside the genesis block" when the permission is
genesis-only and the grant happens outside genesis; and with
FailedToFindAccount when the destination account does not exist. -/
theorem grant_permission_errors (g : Bool) (auth : AccountId) (p : String)
    (dest : AccountId) (w : WSV) :
    (p ∉ knownPermissions →
      applyInstruction g auth (.grant p dest) w = .error .UnknownPermission) ∧
    (p ∈ knownPermissions → p ∈ genesisOnlyPermissions → g = false →
      applyInstruction g auth (.grant p dest) w = .error .NotPermitted) ∧
    (p ∈ knownPermissions → ¬ (p ∈ genesisOnlyPermissions ∧ g = false) →
      dest ∉ w.accounts →
      applyInstruction g auth (.grant p dest) w = .error .FailedToFindAccount) ∧
    errorMessage .UnknownPermission = "Unknown permission" ∧
    errorMessage .NotPermitted =
      "Operation is not permitted: This operation is only allowed inside the genesis block" := by
  refine ⟨?_, ?_, ?_, rfl, rfl⟩
  · intro hu
    simp [applyInstruction, grantPermission, hu]
  · intro hk hg hf
    simp [applyInstruction, grantPermission, hk, hg, hf]
  · intro hk hng hdest
    simp [applyInstruction, grantPermission, hk, hng, hdest]

/-- C8 witness: on the `wonderland` state outside genesis, granting the
unrecognized token `NonExistentPermission` fails with UnknownPermission,
granting the genesis-only `CanRegisterDomain` fails with NotPermitted, and
granting `CanSetParameters` to the absent account carol fails with
FailedToFindAccount. -/
theorem grant_permission_errors_witness :
    applyInstruction false ("alice", "wonderland") (Instruction.grant "NonExistentPermission" ("bob", "wonderland"))
      wonderland = .error ExecError.UnknownPermission ∧
    applyInstruction false ("alice", "wonderland") (Instruction.grant "CanRegisterDomain" ("bob", "wonderland"))
      wonderland = .error ExecError.NotPermitted ∧
    applyInstruction false ("alice", "wonderland") (Instruction.grant "CanSetParameters" ("carol", "wonderland"))
      wonderland = .error ExecError.FailedToFindAccount :=
  ⟨(grant_permission_errors false ("alice", "wonderland") "NonExistentPermission" ("bob", "wonderland")
      wonderland).1 (by decide),
   (grant_permission_errors false ("alice", "wonderland") "CanRegisterDomain" ("bob", "wonderland")
      wonderland).2.1 (by decide) (by decide) rfl,
   (grant_permission_errors false ("alice", "wonderland") "CanSetParameters" ("carol", "wonderland")
      wonderland).2.2.1 (by decide) (by decide) (by decide)⟩

end Iroha

namespace Helpers

theorem hashAt_true_decomp (c : Char) (rest : List Char)
    (h : hashAt (c :: rest) = true) :
    ∃ post, QuotedHexDecomp (c :: rest) [] (rest.take 64) post := by
  simp only [hashAt, Bool.and_eq_true, beq_iff_eq] at h
  obtain ⟨⟨⟨hc, hlen⟩, hall⟩, hhead⟩ := h
  cases hd : (rest.drop 64) with
  | nil => rw [hd] at hhead; simp at hhead
  | cons d tail =>
      rw [hd] at hhead
      simp only [List.head?_cons, Option.some.injEq] at hhead
      refine ⟨tail, ?_, hlen, hall⟩
      have hsplit : rest = rest.take 64 ++ rest.drop 64 := (List.take_append_drop 64 rest).symm
      rw [hd, hhead] at hsplit
      rw [hc, List.nil_append]
      exact congrArg _ hsplit

theorem hashAt_quoted (hex post : List Char) (hlen : hex.length = 64)
    (hall : hex.all Iroha.isHexDigit = true) :
    hashAt ('\"' :: (hex ++ '\"' :: post)) = true ∧
    (hex ++ '\"' :: post).take 64 = hex := by
  have htake : (hex ++ '\"' :: post).take 64 = hex := by
    rw [← hlen]
    exact List.take_left hex _
  have hdrop : (hex ++ '\"' :: post).drop 64 = '\"' :: post := by
    rw [← hlen]
    exact List.drop_left hex _
  refine ⟨?_, htake⟩
  simp [hashAt, htake, hdrop, hlen, hall]

theorem searchHash_none (l : List Char)
    (h : ∀ pre hex post, ¬ QuotedHexDecomp l pre hex post) :
    searchHash l = none := by
  induction l with
  | nil => rfl
  | cons c rest ih =>
      have hAt : hashAt (c :: rest) = false := by
        cases hb : hashAt (c :: rest) with
        | false => rfl
        | true =>
            obtain ⟨post, hq⟩ := hashAt_true_decomp c rest hb
            exact absurd hq (h [] _ _)
      simp only [searchHash, hAt, Bool.false_eq_true, if_false]
      apply ih
      intro pre hex post hq
      exact h (c :: pre) hex post ⟨by rw [hq.1, List.cons_append], hq.2⟩

theorem searchHash_first (pre : List Char) :
    ∀ (l hex post : List Char), QuotedHexDecomp l pre hex post →
      (∀ pre' hex' post', QuotedHexDecomp l pre' hex' post' → pre.length ≤ pre'.length) →
      searchHash l = some (String.mk hex) := by
  induction pre with
  | nil =>
      intro l hex post hq hmin
      obtain ⟨hl, hlen, hall⟩ := hq
      subst hl
      have hh := hashAt_quoted hex post hlen hall
      simp only [List.nil_append] at hh ⊢
      simp only [searchHash, hh.1, if_true, hh.2]
  | cons c pre' ih =>
      intro l hex post hq hmin
      obtain ⟨hl, hlen, hall⟩ := hq
      subst hl
      simp only [List.cons_append] at hmin ⊢
      have hAt : hashAt (c :: (pre' ++ '\"' :: (hex ++ '\"' :: post))) = false := by
        cases hb : hashAt (c :: (pre' ++ '\"' :: (hex ++ '\"' :: post))) with
        | false => rfl
        | true =>
            obtain ⟨post0, hq0⟩ := hashAt_true_decomp _ _ hb
            have := hmin [] _ _ hq0
            simp at this
      simp only [searchHash, hAt, Bool.false_eq_true, if_false]
      apply ih (pre' ++ '\"' :: (hex ++ '\"' :: post)) hex post ⟨rfl, hlen, hall⟩
      intro pre'' hex'' post'' hq''
      have := hmin (c :: pre'') hex'' post'' ⟨by rw [hq''.1]; rfl, hq''.2⟩
      simpa using this

/-- C10: `extract_hash` returns None on any non-string input, on any
string that is empty or whitespace-only, and on any string containing no
double-quoted 64-character hexadecimal substring; and on a string whose
leftmost double-quoted 64-hex-digit substring starts after prefix `pre`,
it returns exactly those 64 hex digits with the surrounding quotes
stripped. -/
theorem extract_hash_correct :
    (extract_hash .nonStr = none) ∧
    (∀ s : String, s.toList.all pyIsSpace = true → extract_hash (.str s) = none) ∧
    (∀ s : String, (∀ pre hex post, ¬ QuotedHexDecomp s.toList pre hex post) →
      extract_hash (.str s) = none) ∧
    (∀ (s : String) (pre hex post : List Char), QuotedHexDecomp s.toList pre hex post →
      (∀ pre' hex' post', QuotedHexDecomp s.toList pre' hex' post' →
        pre.length ≤ pre'.length) →
      extract_hash (.str s) = some (String.mk hex)) := by
  refine ⟨rfl, ?_, ?_, ?_⟩
  · intro s h
    simp only [extract_hash]
    rw [if_pos h]
  · intro s h
    by_cases hws : s.toList.all pyIsSpace = true
    · simp only [extract_hash]
      rw [if_pos hws]
    · simp only [extract_hash]
      rw [if_neg hws]
      exact searchHash_none _ h
  · intro s pre hex post hq hmin
    have hqm : ('\"' : Char) ∈ s.toList := by
      rw [hq.1]
      simp
    have hws : ¬ (s.toList.all pyIsSpace = true) := by
      intro hall
      rw [List.all_eq_true] at hall
      have := hall _ hqm
      simp [pyIsSpace] at this
    simp only [extract_hash]
    rw [if_neg hws]
    exact searchHash_first pre s.toList hex post hq hmin

/-- C10 witness: on the string consisting of 64 `a` digits between double
quotes, `extract_hash` returns exactly the 64 `a` digits with the quotes
stripped. -/
theorem extract_hash_correct_witness :
    extract_hash (.str (String.mk ('\"' :: (List.replicate 64 'a' ++ ['\"'])))) =
      some (String.mk (List.replicate 64 'a')) :=
  extract_hash_correct.2.2.2 (String.mk ('\"' :: (List.replicate 64 'a' ++ ['\"'])))
    [] (List.replicate 64 'a') [] ⟨rfl, by decide, by decide⟩
    (fun pre' hex' post' hq => Nat.zero_le _)

end Helpers
